import Mathlib

/-!
Verification development for the farcaster-go example client.

A shallow embedding of `example/main.go`: the API-key unary interceptor
`apiKeyInterceptor` and the bootstrap sequence of `main` (credential
selection, optional interceptor, dial, one `GetCastsByFid` call, JSON
rendering, deferred teardown).

Effectful Go code is written in state-passing style over a world that holds
the observable trace.  The outcomes of the operations performed outside the
program (dial, remote call, JSON projection) are given by an `Env` value.

Go's `strings.ToLower`, which `metadata.Pairs` and `MD.Get` apply to keys, is
carried as the parameter `ToLower`, since the Unicode case tables belong to
the Go standard library.
-/

namespace Example

/-! ## Go values -/

/-- Go `error` value, observed through the text `Error()` returns. -/
structure Error where
  text : String
deriving DecidableEq, Repr

/-- Effectful computation over a world `σ`, in state-passing style. -/
abbrev Eff (σ α : Type) : Type := σ → α × σ

/-! ## Package `metadata` of grpc-go -/

/-- Type `metadata.MD`, a Go `map[string][]string`, as an association list
with at most one entry per key. -/
abbrev MD : Type := List (String × List String)

/-- Struct `rawMD` stored in a context under the outgoing-metadata key: the
map given to `NewOutgoingContext` and the key/value lists appended later by
`AppendToOutgoingContext`. -/
structure rawMD where
  md : MD
  added : List (List String)
deriving DecidableEq, Repr

/-- Go `context.Context`, reduced to what the program and the metadata package
observe: whether it can be cancelled, the value stored under the
outgoing-metadata key, and the values stored under all other keys. -/
structure Context where
  cancelable : Bool
  values : List (String × String)
  outgoing : Option rawMD
deriving DecidableEq, Repr

namespace context

/-- Go `context.Background()`: never cancelled, no values. -/
def Background : Context :=
  { cancelable := false, values := [], outgoing := none }

/-- Go `context.WithCancel(parent)`: the derived context (the returned cancel
function is an event of the world, see `Event.cancel`). -/
def WithCancel (parent : Context) : Context :=
  { parent with cancelable := true }

end context

namespace metadata

/-- Map read `md[key]`: the stored slice, or the nil slice for a missing key. -/
def index (md : MD) (key : String) : List String :=
  match md.lookup key with
  | some vs => vs
  | none => []

/-- Map write `md[key] = vs`. -/
def assign (md : MD) (key : String) (vs : List String) : MD :=
  (key, vs) :: md.filter (fun e => e.1 != key)

/-- Loop of `Pairs`: `for i := 0; i < len(kv); i += 2` with body
`key := strings.ToLower(kv[i]); md[key] = append(md[key], kv[i+1])`. -/
def pairsLoop (ToLower : String → String) : List String → MD → MD
  | k :: v :: rest, md =>
      pairsLoop ToLower rest (assign md (ToLower k) (index md (ToLower k) ++ [v]))
  | _, md => md

/-- Function `metadata.Pairs(kv...)`.  It panics when `len(kv)` is odd; the
caller discharges that case by the proof `even`. -/
def Pairs (ToLower : String → String) (kv : List String) (_even : kv.length % 2 = 0) : MD :=
  pairsLoop ToLower kv []

/-- Method `MD.Get(k)`: `k = strings.ToLower(k); return md[k]`. -/
def Get (ToLower : String → String) (md : MD) (k : String) : List String :=
  index md (ToLower k)

/-- Function `metadata.NewOutgoingContext(ctx, md)`:
`context.WithValue(ctx, mdOutgoingKey{}, rawMD{md: md})`.  The value under the
outgoing key is replaced, everything else is inherited from `ctx`. -/
def NewOutgoingContext (ctx : Context) (md : MD) : Context :=
  { ctx with outgoing := some { md := md, added := [] } }

/-- Function `metadata.FromOutgoingContextRaw(ctx)`: what the transport reads
when it builds the header frame of a call. -/
def FromOutgoingContextRaw (ctx : Context) : Option (MD × List (List String)) :=
  match ctx.outgoing with
  | some raw => some (raw.md, raw.added)
  | none => none

end metadata

/-! ## Unary interceptors -/

/-- Type `grpc.UnaryInvoker`: `func(ctx, method, req, reply, cc, opts...) error`.
The reply and the connection are pointers, modelled as handles of type
`Reply` and `CC`; the message a reply handle points to lives in the world. -/
abbrev UnaryInvoker (σ Req Reply CC Opt : Type) : Type :=
  Context → String → Req → Reply → CC → List Opt → Eff σ (Option Error)

/-- Type `grpc.UnaryClientInterceptor`:
`func(ctx, method, req, reply, cc, invoker, opts...) error`. -/
abbrev UnaryClientInterceptor (σ Req Reply CC Opt : Type) : Type :=
  Context → String → Req → Reply → CC → UnaryInvoker σ Req Reply CC Opt → List Opt →
    Eff σ (Option Error)

/-- Function `apiKeyInterceptor(header, value)` of `main.go`. -/
def apiKeyInterceptor {σ Req Reply CC Opt : Type} (ToLower : String → String)
    (header value : String) : UnaryClientInterceptor σ Req Reply CC Opt :=
  fun ctx method req reply cc invoker opts =>
    let md := metadata.Pairs ToLower [header, value] (by simp)
    let ctx := metadata.NewOutgoingContext ctx md
    invoker ctx method req reply cc opts

/-- One call received by an invoker: the arguments it was given. -/
structure Invocation (Req Reply CC Opt : Type) where
  ctx : Context
  method : String
  req : Req
  reply : Reply
  cc : CC
  opts : List Opt

/-- An invoker that behaves as `inv` on the world and also appends every call
it receives to a log kept next to the world. -/
def logged {σ Req Reply CC Opt : Type} (inv : UnaryInvoker σ Req Reply CC Opt) :
    UnaryInvoker (σ × List (Invocation Req Reply CC Opt)) Req Reply CC Opt :=
  fun ctx method req reply cc opts s =>
    let r := inv ctx method req reply cc opts s.1
    (r.1, (r.2, s.2 ++ [⟨ctx, method, req, reply, cc, opts⟩]))

/-- ASCII lower-casing, the behaviour of `strings.ToLower` on ASCII strings;
used to evaluate the definitions at concrete inputs. -/
def asciiLower (s : String) : String :=
  String.mk (s.data.map Char.toLower)

/-! ## Transport credentials -/

/-- Go `*x509.CertPool`: a set of root certificates. -/
structure CertPool where
  certs : List String
deriving DecidableEq, Repr

/-- Go `credentials.TransportCredentials`, by how the handshake is done:
none at all, or TLS with the `RootCAs` and `ServerName` of its `tls.Config`
(a nil `RootCAs` makes TLS use the host's root CA set). -/
inductive TransportCredentials where
  | insecure
  | tls (rootCAs : Option CertPool) (serverName : String)
deriving DecidableEq, Repr

namespace insecure

/-- Function `insecure.NewCredentials()`: credentials that disable transport
security. -/
def NewCredentials : TransportCredentials := TransportCredentials.insecure

end insecure

namespace credentials

/-- Function `credentials.NewClientTLSFromCert(cp, serverNameOverride)`:
`NewTLS(&tls.Config{ServerName: serverNameOverride, RootCAs: cp})`. -/
def NewClientTLSFromCert (cp : Option CertPool) (serverNameOverride : String) :
    TransportCredentials :=
  TransportCredentials.tls cp serverNameOverride

end credentials

/-! ## Messages of the hub service -/

/-- Message `farcaster.FidRequest`, with the fields `main` sets: `Fid uint64`,
`Reverse *bool`, `PageSize *uint32` (a nil pointer is `none`). -/
structure FidRequest where
  Fid : Nat
  Reverse : Option Bool
  PageSize : Option Nat
deriving DecidableEq, Repr

/-- Modelled from the spec: the response type of the generated `farcaster`
package, "a response containing an ordered sequence of cast records", the
records being opaque to this program. -/
structure MessagesResponse where
  messages : List String
deriving DecidableEq, Repr

/-- Go `grpc.CallOption`, for the one option the program builds. -/
inductive CallOption where
  | MaxCallRecvMsgSize (bytes : Nat)
deriving DecidableEq, Repr

/-! ## The world: observable trace and reply message -/

/-- Pointer `*grpc.ClientConn`, as a handle. -/
abbrev ConnPtr : Type := Nat

/-- Pointer to the reply message of a call.  The stub allocates one reply
message per call; it is the `reply` cell of the world. -/
abbrev ReplyPtr : Type := Unit

/-- What the program does that can be seen from outside. -/
inductive Event where
  /-- Call of `grpc.Dial` with this target and these settings. -/
  | dial (target : String) (creds : Option TransportCredentials) (intercepted : Bool)
      (callOptions : List CallOption)
  /-- A unary call was handed to the transport. -/
  | call (ctx : Context) (method : String) (req : FidRequest) (cc : ConnPtr)
      (opts : List CallOption)
  /-- Text written to standard output. -/
  | stdout (text : String)
  /-- Message written by the standard logger (to standard error). -/
  | log (text : String)
  /-- The cancel function of the call context was called. -/
  | cancel
  /-- Call of `Close` on the connection. -/
  | close (cc : ConnPtr)
deriving DecidableEq, Repr

/-- The world the program runs in. -/
structure World where
  events : List Event
  reply : MessagesResponse
deriving DecidableEq, Repr

/-- The world at program start. -/
def World.start : World := { events := [], reply := { messages := [] } }

/-- Append an event to the trace. -/
def World.emit (w : World) (e : Event) : World :=
  { w with events := w.events ++ [e] }

/-- How the process ends: `main` returned, `os.Exit(code)` was called, or a
panic reached the top of the goroutine. -/
inductive Exit where
  | returned
  | exited (code : Nat)
  | panicked
deriving DecidableEq, Repr

/-- Exit status of the process. -/
def Exit.status : Exit → Nat
  | Exit.returned => 0
  | Exit.exited code => code
  | Exit.panicked => 2

/-- A finished run: the final world and how the process ended. -/
structure Run where
  world : World
  exit : Exit
deriving DecidableEq, Repr

/-- Outcome of dialling: a connection and no error, or an error together
with a connection pointer that may be nil. -/
inductive DialAttempt where
  | ok (conn : ConnPtr)
  | fail (conn : Option ConnPtr) (err : Error)
deriving DecidableEq, Repr

/-- Outcomes of the operations performed outside the program. -/
structure Env where
  /-- Outcome of `grpc.Dial`. -/
  dial : DialAttempt
  /-- Outcome of the remote call: the response, or the error. -/
  call : Except Error MessagesResponse
  /-- Result pair `([]byte, error)` of `protojson.Marshal` on a response. -/
  marshal : MessagesResponse → String × Option Error

/-! ## Package `grpc` -/

/-- The interceptor type at the types of this program. -/
abbrev HubInterceptor : Type :=
  UnaryClientInterceptor World FidRequest ReplyPtr ConnPtr CallOption

/-- Struct `dialOptions` of grpc-go, with the fields the program sets. -/
structure dialOptions where
  creds : Option TransportCredentials
  unaryInt : Option HubInterceptor
  callOptions : List CallOption

/-- Type `grpc.DialOption`: a function that updates the `dialOptions`. -/
abbrev DialOption : Type := dialOptions → dialOptions

/-- Struct `grpc.ClientConn`: its pointer, target and dial options. -/
structure ClientConn where
  ptr : ConnPtr
  target : String
  dopts : dialOptions

namespace grpc

/-- Option `grpc.WithTransportCredentials(creds)`. -/
def WithTransportCredentials (creds : TransportCredentials) : DialOption :=
  fun o => { o with creds := some creds }

/-- Option `grpc.WithUnaryInterceptor(f)`: `o.unaryInt = f`, where a nil `f`
is `none`. -/
def WithUnaryInterceptor (f : Option HubInterceptor) : DialOption :=
  fun o => { o with unaryInt := f }

/-- Option `grpc.WithDefaultCallOptions(cos...)`:
`o.callOptions = append(o.callOptions, cos...)`. -/
def WithDefaultCallOptions (cos : List CallOption) : DialOption :=
  fun o => { o with callOptions := o.callOptions ++ cos }

/-- Dial options before any `DialOption` is applied. -/
def defaultDialOptions : dialOptions :=
  { creds := none, unaryInt := none, callOptions := [] }

/-- Function `grpc.Dial(target, opts...)`: applies the options in order and
returns the connection built from them, or the error. -/
def Dial (env : Env) (target : String) (opts : List DialOption) :
    Eff World (Option ClientConn × Option Error) :=
  fun w =>
    let dopts := opts.foldl (fun o f => f o) defaultDialOptions
    let w := w.emit (Event.dial target dopts.creds dopts.unaryInt.isSome dopts.callOptions)
    match env.dial with
    | DialAttempt.ok p =>
        ((some { ptr := p, target := target, dopts := dopts }, none), w)
    | DialAttempt.fail p err =>
        ((p.map (fun q => { ptr := q, target := target, dopts := dopts }), some err), w)

/-- Function `invoke` of grpc-go, the invoker at the end of the interceptor
chain: sends the call and, on success, stores the response in the reply. -/
def invoke (env : Env) : UnaryInvoker World FidRequest ReplyPtr ConnPtr CallOption :=
  fun ctx method req _reply cc opts w =>
    let w := w.emit (Event.call ctx method req cc opts)
    match env.call with
    | Except.ok res => (none, { w with reply := res })
    | Except.error err => (some err, w)

end grpc

/-- Method `(*ClientConn).Invoke`: `opts = combine(cc.dopts.callOptions, opts)`,
then the call goes through `cc.dopts.unaryInt` when it is not nil and straight
to `invoke` otherwise. -/
def ClientConn.Invoke (env : Env) (cc : ClientConn) (ctx : Context) (method : String)
    (args : FidRequest) (reply : ReplyPtr) (opts : List CallOption) :
    Eff World (Option Error) :=
  let opts := cc.dopts.callOptions ++ opts
  match cc.dopts.unaryInt with
  | some f => f ctx method args reply cc.ptr (grpc.invoke env) opts
  | none => grpc.invoke env ctx method args reply cc.ptr opts

/-- Method `(*ClientConn).Close`. -/
def ClientConn.Close (cc : ClientConn) (w : World) : World :=
  w.emit (Event.close cc.ptr)

/-! ## Generated client stub -/

/-- Struct `hubServiceClient` of the generated package. -/
structure hubServiceClient where
  cc : ClientConn

/-- Function `farcaster.NewHubServiceClient(cc)`. -/
def NewHubServiceClient (cc : ClientConn) : hubServiceClient := { cc := cc }

/-- Full method name of the call, service `HubService`, method `GetCastsByFid`. -/
def HubService_GetCastsByFid_FullMethodName : String := "/HubService/GetCastsByFid"

/-- Modelled from the spec: the generated stub `GetCastsByFid`, which lies in
the `farcaster` package.  It "issues exactly one blocking unary call" on the
connection and yields "the typed response value, or an `RpcError`": a fresh
reply message is allocated, the connection is invoked once, and the reply is
returned when the invocation reports no error. -/
def hubServiceClient.GetCastsByFid (env : Env) (c : hubServiceClient) (ctx : Context)
    (req : FidRequest) (opts : List CallOption) :
    Eff World (Except Error MessagesResponse) :=
  fun w =>
    let w := { w with reply := { messages := [] } }
    let r := c.cc.Invoke env ctx HubService_GetCastsByFid_FullMethodName req () opts w
    match r.1 with
    | some err => (Except.error err, r.2)
    | none => (Except.ok r.2.reply, r.2)

/-! ## Standard library calls of `main` -/

namespace log

/-- Function `log.Fatalf`: the formatted message goes to the standard logger,
then `os.Exit(1)`.  The date and time the logger puts before the message are
not part of the event. -/
def Fatalf (msg : String) (w : World) : Run :=
  { world := w.emit (Event.log msg), exit := Exit.exited 1 }

end log

namespace fmt

/-- Function `fmt.Printf`, given the formatted text. -/
def Printf (text : String) (w : World) : World :=
  w.emit (Event.stdout text)

end fmt

namespace protojson

/-- Function `protojson.Marshal(m)`: the pair `([]byte, error)` it returns. -/
def Marshal (env : Env) (m : MessagesResponse) : String × Option Error :=
  env.marshal m

end protojson

/-- A deferred call of `main`. -/
inductive Deferred where
  | connClose (conn : Option ClientConn)
  | cancel

/-- Run the deferred calls, the last deferred first.  `Close` on a nil
connection dereferences it and panics. -/
def runDeferred : List Deferred → Run → Run
  | [], r => r
  | Deferred.cancel :: ds, r => runDeferred ds { r with world := r.world.emit Event.cancel }
  | Deferred.connClose (some cc) :: ds, r => runDeferred ds { r with world := cc.Close r.world }
  | Deferred.connClose none :: ds, r => runDeferred ds { r with exit := Exit.panicked }

/-! ## `main` -/

/-- Credential selection of `main`:
`cred := insecure.NewCredentials(); if useSsl { cred = credentials.NewClientTLSFromCert(nil, "") }`. -/
def cred (useSsl : Bool) : TransportCredentials :=
  if useSsl then credentials.NewClientTLSFromCert none "" else insecure.NewCredentials

/-- Interceptor selection of `main`: `var interceptor grpc.UnaryClientInterceptor`
(nil), `if hubApiKey != "" { interceptor = apiKeyInterceptor("x-api-key", hubApiKey) }`. -/
def interceptor (ToLower : String → String) (hubApiKey : String) : Option HubInterceptor :=
  if hubApiKey != "" then some (apiKeyInterceptor ToLower "x-api-key" hubApiKey) else none

/-- Body of `main`, with the three settings it hard-codes (`hubAddr`, `useSsl`,
`hubApiKey`) as parameters. -/
def mainWith (ToLower : String → String) (hubAddr : String) (useSsl : Bool)
    (hubApiKey : String) (env : Env) : Run :=
  let cred := cred useSsl
  let interceptor := interceptor ToLower hubApiKey
  let d := grpc.Dial env hubAddr
    [grpc.WithTransportCredentials cred,
     grpc.WithUnaryInterceptor interceptor,
     grpc.WithDefaultCallOptions [CallOption.MaxCallRecvMsgSize (20 * 1024 * 1024)]]
    World.start
  let conn := d.1.1
  let err := d.1.2
  let w := d.2
  -- defer conn.Close()
  let deferred := [Deferred.connClose conn]
  match err with
  | some err => log.Fatalf ("Did not connect: " ++ err.text) w
  | none =>
    let ctx := context.WithCancel context.Background
    -- defer cancel()
    let deferred := Deferred.cancel :: deferred
    match conn with
    | none =>
        -- the call dereferences the nil connection: panic, deferred calls run
        runDeferred deferred { world := w, exit := Exit.panicked }
    | some conn =>
      let client := NewHubServiceClient conn
      let fid : Nat := 280
      let pageSize : Nat := 10
      let reverse : Bool := true
      let c := client.GetCastsByFid env ctx
        { Fid := fid, Reverse := some reverse, PageSize := some pageSize } [] w
      match c.1 with
      | Except.error err => log.Fatalf ("Failed to get casts by fid: " ++ err.text) c.2
      | Except.ok res =>
        let m := protojson.Marshal env res
        let jsonBytes := m.1
        let w := fmt.Printf (jsonBytes ++ "\n") c.2
        runDeferred deferred { world := w, exit := Exit.returned }

/-- Function `main` of `main.go`. -/
def main (ToLower : String → String) (env : Env) : Run :=
  mainWith ToLower "hub-grpc-api.neynar.com:443" true "" env

/-! ## Observations on a trace -/

/-- Texts written to standard output, in order. -/
def stdoutOf : List Event → List String
  | [] => []
  | Event.stdout t :: es => t :: stdoutOf es
  | _ :: es => stdoutOf es

/-- Messages written by the logger, in order. -/
def logOf : List Event → List String
  | [] => []
  | Event.log t :: es => t :: logOf es
  | _ :: es => logOf es

/-- Unary calls handed to the transport, in order: method and request. -/
def callsOf : List Event → List (String × FidRequest)
  | [] => []
  | Event.call _ method req _ _ :: es => (method, req) :: callsOf es
  | _ :: es => callsOf es

/-- Contexts of the unary calls handed to the transport, in order. -/
def callContextsOf : List Event → List Context
  | [] => []
  | Event.call ctx _ _ _ _ :: es => ctx :: callContextsOf es
  | _ :: es => callContextsOf es

/-- Connections closed, in order. -/
def closesOf : List Event → List ConnPtr
  | [] => []
  | Event.close p :: es => p :: closesOf es
  | _ :: es => closesOf es

/-- Settings of the dial calls, in order: target, credentials, whether an
interceptor is installed, default call options. -/
def dialsOf : List Event → List (String × Option TransportCredentials × Bool × List CallOption)
  | [] => []
  | Event.dial t c i o :: es => (t, c, i, o) :: dialsOf es
  | _ :: es => dialsOf es

/-- The context the transport sees for the call of `main`. -/
def callCtx (ToLower : String → String) (hubApiKey : String) : Context :=
  if hubApiKey != "" then
    metadata.NewOutgoingContext (context.WithCancel context.Background)
      (metadata.Pairs ToLower ["x-api-key", hubApiKey] (by simp))
  else context.WithCancel context.Background

/-- The request `main` sends. -/
def mainRequest : FidRequest := { Fid := 280, Reverse := some true, PageSize := some 10 }

/-- The dial event of `main`. -/
def dialEvent (hubAddr : String) (useSsl : Bool) (hubApiKey : String) : Event :=
  Event.dial hubAddr (some (cred useSsl)) (hubApiKey != "")
    [CallOption.MaxCallRecvMsgSize 20971520]

/-- The call event of `main` on connection `p`. -/
def callEvent (ToLower : String → String) (hubApiKey : String) (p : ConnPtr) : Event :=
  Event.call (callCtx ToLower hubApiKey) "/HubService/GetCastsByFid" mainRequest p
    [CallOption.MaxCallRecvMsgSize 20971520]

/-- Values sent for header `key` (already lower-cased) by one list appended
with `AppendToOutgoingContext`: the list alternates keys and values. -/
def addedValues (ToLower : String → String) : List String → String → List String
  | k :: v :: rest, key =>
      (if ToLower k = key then [v] else []) ++ addedValues ToLower rest key
  | _, _ => []

/-- Values the outgoing metadata of `ctx` carries for header `name`: those of
the attached map, then those appended later; none when no metadata is attached. -/
def outgoingHeader (ToLower : String → String) (ctx : Context) (name : String) : List String :=
  match metadata.FromOutgoingContextRaw ctx with
  | some (md, added) =>
      metadata.Get ToLower md name ++ added.flatMap (fun kv => addedValues ToLower kv (ToLower name))
  | none => []

/-- A caller context that already carries the outgoing header
`authorization: token`. -/
def ctxWithAuthorization : Context :=
  { cancelable := false, values := [],
    outgoing := some { md := [("authorization", ["token"])], added := [] } }

/-- An invoker that reports success and leaves the world as it is. -/
def okInvoker : UnaryInvoker Unit Unit Unit Unit Unit :=
  fun _ _ _ _ _ _ s => (none, s)

/-- An environment in which every outside operation succeeds. -/
def envAllOk : Env :=
  { dial := DialAttempt.ok 1,
    call := Except.ok { messages := ["cast"] },
    marshal := fun _ => ("\x7b\x7d", none) }

/-- An environment in which the JSON projection reports an error. -/
def envMarshalFails : Env :=
  { dial := DialAttempt.ok 1,
    call := Except.ok { messages := ["cast"] },
    marshal := fun _ => ("", some { text := "proto: invalid UTF-8" }) }

/-! ## The runs of `main`, path by path -/

/-- The map built by `Pairs` from one key and one value has one entry. -/
theorem pairs_single (ToLower : String → String) (h v : String) :
    metadata.Pairs ToLower [h, v] (by simp) = [(ToLower h, [v])] := by
  simp [metadata.Pairs, metadata.pairsLoop, metadata.assign, metadata.index]

/-- The run of `main` when the dial returns an error. -/
theorem run_dial_fail (ToLower : String → String) (hubAddr : String) (useSsl : Bool)
    (hubApiKey : String) (p : Option ConnPtr) (e : Error)
    (call : Except Error MessagesResponse) (marshal : MessagesResponse → String × Option Error) :
    mainWith ToLower hubAddr useSsl hubApiKey { dial := DialAttempt.fail p e, call := call, marshal := marshal }
      = { world := { events := [dialEvent hubAddr useSsl hubApiKey, Event.log ("Did not connect: " ++ e.text)],
                     reply := { messages := [] } },
          exit := Exit.exited 1 } := by
  by_cases hk : hubApiKey = "" <;>
    simp [mainWith, grpc.Dial, log.Fatalf, World.emit, World.start, dialEvent, interceptor, hk,
      grpc.WithTransportCredentials, grpc.WithUnaryInterceptor, grpc.WithDefaultCallOptions,
      grpc.defaultDialOptions]

/-- The run of `main` when the dial succeeds and the call returns an error. -/
theorem run_call_fail (ToLower : String → String) (hubAddr : String) (useSsl : Bool)
    (hubApiKey : String) (p : ConnPtr) (e : Error)
    (marshal : MessagesResponse → String × Option Error) :
    mainWith ToLower hubAddr useSsl hubApiKey
        { dial := DialAttempt.ok p, call := Except.error e, marshal := marshal }
      = { world := { events := [dialEvent hubAddr useSsl hubApiKey, callEvent ToLower hubApiKey p,
                                Event.log ("Failed to get casts by fid: " ++ e.text)],
                     reply := { messages := [] } },
          exit := Exit.exited 1 } := by
  by_cases hk : hubApiKey = "" <;>
    simp [mainWith, grpc.Dial, log.Fatalf, World.emit, World.start, dialEvent, callEvent, callCtx,
      interceptor, hk, grpc.WithTransportCredentials, grpc.WithUnaryInterceptor,
      grpc.WithDefaultCallOptions, grpc.defaultDialOptions, NewHubServiceClient,
      hubServiceClient.GetCastsByFid, ClientConn.Invoke, grpc.invoke, apiKeyInterceptor,
      HubService_GetCastsByFid_FullMethodName, mainRequest]

/-- The run of `main` when the dial and the call succeed. -/
theorem run_call_ok (ToLower : String → String) (hubAddr : String) (useSsl : Bool)
    (hubApiKey : String) (p : ConnPtr) (res : MessagesResponse)
    (marshal : MessagesResponse → String × Option Error) :
    mainWith ToLower hubAddr useSsl hubApiKey
        { dial := DialAttempt.ok p, call := Except.ok res, marshal := marshal }
      = { world := { events := [dialEvent hubAddr useSsl hubApiKey, callEvent ToLower hubApiKey p,
                                Event.stdout ((marshal res).1 ++ "\n"), Event.cancel, Event.close p],
                     reply := res },
          exit := Exit.returned } := by
  by_cases hk : hubApiKey = "" <;>
    simp [mainWith, grpc.Dial, fmt.Printf, protojson.Marshal, runDeferred, ClientConn.Close,
      World.emit, World.start, dialEvent, callEvent, callCtx,
      interceptor, hk, grpc.WithTransportCredentials, grpc.WithUnaryInterceptor,
      grpc.WithDefaultCallOptions, grpc.defaultDialOptions, NewHubServiceClient,
      hubServiceClient.GetCastsByFid, ClientConn.Invoke, grpc.invoke, apiKeyInterceptor,
      HubService_GetCastsByFid_FullMethodName, mainRequest]

/-! ## The interceptor -/

/-- C1: for every header `h`, value `v` and unary call handed to
`apiKeyInterceptor(h, v)`, the invoker receives a context whose outgoing
metadata is the single entry stored by `metadata.Pairs(h, v)`, so that reading
header `h` from it (`MD.Get`, which like `Pairs` lower-cases the key) yields
exactly `[v]`. -/
theorem C1_invoker_context_carries_header {σ Req Reply CC Opt : Type}
    (ToLower : String → String) (h v : String) (ctx : Context) (method : String) (req : Req)
    (reply : Reply) (cc : CC) (opts : List Opt) (inv : UnaryInvoker σ Req Reply CC Opt)
    (s : σ) (calls : List (Invocation Req Reply CC Opt)) :
    ((apiKeyInterceptor ToLower h v ctx method req reply cc (logged inv) opts (s, calls)).2.2.map
        (fun i => metadata.FromOutgoingContextRaw i.ctx)
      = calls.map (fun i => metadata.FromOutgoingContextRaw i.ctx)
          ++ [some ([(ToLower h, [v])], [])])
    ∧ metadata.Get ToLower [(ToLower h, [v])] h = [v]
    ∧ outgoingHeader ToLower
        (metadata.NewOutgoingContext ctx (metadata.Pairs ToLower [h, v] (by simp))) h = [v] := by
  refine ⟨?_, ?_, ?_⟩
  · simp [apiKeyInterceptor, logged, metadata.NewOutgoingContext, metadata.FromOutgoingContextRaw,
      pairs_single]
  · simp [metadata.Get, metadata.index]
  · simp [outgoingHeader, metadata.NewOutgoingContext, metadata.FromOutgoingContextRaw,
      pairs_single, metadata.Get, metadata.index]

/-- C2: the interceptor returned by `apiKeyInterceptor(h, v)` calls the invoker
exactly once, with the method, req, reply, cc and opts it received and the
context built by `NewOutgoingContext`; its result and its effect on the world
are exactly those of that one invoker call (nil for nil, the same error for an
error). -/
theorem C2_interceptor_forwards_call_once {σ Req Reply CC Opt : Type}
    (ToLower : String → String) (h v : String) (ctx : Context) (method : String) (req : Req)
    (reply : Reply) (cc : CC) (opts : List Opt) (inv : UnaryInvoker σ Req Reply CC Opt)
    (s : σ) (calls : List (Invocation Req Reply CC Opt)) :
    (apiKeyInterceptor ToLower h v ctx method req reply cc (logged inv) opts (s, calls)).2.2
        = calls ++ [{ ctx := metadata.NewOutgoingContext ctx
                              (metadata.Pairs ToLower [h, v] (by simp)),
                      method := method, req := req, reply := reply, cc := cc, opts := opts }]
    ∧ apiKeyInterceptor ToLower h v ctx method req reply cc inv opts s
        = inv (metadata.NewOutgoingContext ctx (metadata.Pairs ToLower [h, v] (by simp)))
            method req reply cc opts s
    ∧ (apiKeyInterceptor ToLower h v ctx method req reply cc (logged inv) opts (s, calls)).1
        = (inv (metadata.NewOutgoingContext ctx (metadata.Pairs ToLower [h, v] (by simp)))
            method req reply cc opts s).1
    ∧ (apiKeyInterceptor ToLower h v ctx method req reply cc (logged inv) opts (s, calls)).2.1
        = (inv (metadata.NewOutgoingContext ctx (metadata.Pairs ToLower [h, v] (by simp)))
            method req reply cc opts s).2 := by
  refine ⟨?_, ?_, ?_, ?_⟩ <;> simp [apiKeyInterceptor, logged]

/-- C10 (evaluation at the failing input): a call whose context carries the
outgoing header `authorization: token` reaches the invoker with outgoing
metadata that holds `x-api-key: k` only; the `authorization` entry is gone. -/
theorem C10_interceptor_replaces_existing_metadata :
    ((apiKeyInterceptor asciiLower "x-api-key" "k" ctxWithAuthorization "/m" () () ()
          (logged okInvoker) [] ((), [])).2.2.map (fun i => i.ctx.outgoing)
        = [some { md := [("x-api-key", ["k"])], added := [] }])
    ∧ outgoingHeader asciiLower ctxWithAuthorization "authorization" = ["token"]
    ∧ ((apiKeyInterceptor asciiLower "x-api-key" "k" ctxWithAuthorization "/m" () () ()
          (logged okInvoker) [] ((), [])).2.2.map
          (fun i => outgoingHeader asciiLower i.ctx "authorization")
        = [[]]) := by
  refine ⟨?_, ?_, ?_⟩ <;> decide

/-! ## The bootstrap in `main` -/

/-- C3: the bootstrap installs an interceptor exactly when `hubApiKey` is not
empty (the dial records it so in every run); a call made through a connection
whose interceptor is the one `main` selects reaches the transport once, with
the context produced by `apiKeyInterceptor("x-api-key", hubApiKey)` when the
key is not empty and with the caller's own context when it is empty; in the
first case header `x-api-key` carries exactly `[hubApiKey]`, in the second the
header is whatever the caller's context held (nothing is added). -/
theorem C3_interceptor_installed_iff_key_nonempty (ToLower : String → String)
    (hubAddr : String) (useSsl : Bool) (hubApiKey : String) (env : Env)
    (p : ConnPtr) (target : String) (creds : Option TransportCredentials)
    (co : List CallOption) (ctx : Context) (method : String) (req : FidRequest)
    (opts : List CallOption) (w : World) :
    (interceptor ToLower hubApiKey).isSome = (hubApiKey != "")
    ∧ (dialsOf (mainWith ToLower hubAddr useSsl hubApiKey env).world.events).map
        (fun d => d.2.2.1) = [hubApiKey != ""]
    ∧ (ClientConn.Invoke env
          { ptr := p, target := target,
            dopts := { creds := creds, unaryInt := interceptor ToLower hubApiKey,
                       callOptions := co } }
          ctx method req () opts w).2.events
        = w.events ++
            [Event.call
              (if hubApiKey != "" then
                metadata.NewOutgoingContext ctx
                  (metadata.Pairs ToLower ["x-api-key", hubApiKey] (by simp))
               else ctx)
              method req p (co ++ opts)]
    ∧ outgoingHeader ToLower
        (if hubApiKey != "" then
          metadata.NewOutgoingContext ctx
            (metadata.Pairs ToLower ["x-api-key", hubApiKey] (by simp))
         else ctx) "x-api-key"
        = (if hubApiKey != "" then [hubApiKey] else outgoingHeader ToLower ctx "x-api-key")
    ∧ callContextsOf (mainWith ToLower hubAddr useSsl hubApiKey
          { dial := DialAttempt.ok p, call := env.call, marshal := env.marshal }).world.events
        = [callCtx ToLower hubApiKey]
    ∧ outgoingHeader ToLower (callCtx ToLower hubApiKey) "x-api-key"
        = (if hubApiKey != "" then [hubApiKey] else []) := by
  refine ⟨?_, ?_, ?_, ?_, ?_, ?_⟩
  · by_cases hk : hubApiKey = "" <;> simp [interceptor, hk]
  · obtain ⟨dial, call, marshal⟩ := env
    cases dial with
    | fail q e => rw [run_dial_fail]; simp [dialsOf, dialEvent]
    | ok q =>
      cases call with
      | error e => rw [run_call_fail]; simp [dialsOf, dialEvent, callEvent]
      | ok res => rw [run_call_ok]; simp [dialsOf, dialEvent, callEvent]
  · by_cases hk : hubApiKey = "" <;>
      cases hc : env.call <;>
      simp [ClientConn.Invoke, interceptor, hk, grpc.invoke, apiKeyInterceptor, World.emit, hc]
  · by_cases hk : hubApiKey = ""
    · simp [hk]
    · simp [hk, outgoingHeader, metadata.NewOutgoingContext, metadata.FromOutgoingContextRaw,
        pairs_single, metadata.Get, metadata.index]
  · cases hc : env.call with
    | error e => rw [run_call_fail]; simp [callContextsOf, dialEvent, callEvent]
    | ok res => rw [run_call_ok]; simp [callContextsOf, dialEvent, callEvent]
  · by_cases hk : hubApiKey = ""
    · simp [hk, callCtx, outgoingHeader, metadata.FromOutgoingContextRaw, context.WithCancel,
        context.Background]
    · simp [hk, callCtx, outgoingHeader, metadata.NewOutgoingContext,
        metadata.FromOutgoingContextRaw, pairs_single, metadata.Get, metadata.index]

/-- C4: the credential selection yields insecure (plaintext) credentials when
`useSsl` is false and TLS client credentials with a nil root pool and an empty
server-name override when it is true; it is a total function with no error
result, and its value is the one handed to the dial in every run. -/
theorem C4_credential_selection (ToLower : String → String) (hubAddr : String)
    (useSsl : Bool) (hubApiKey : String) (env : Env) :
    cred false = TransportCredentials.insecure
    ∧ cred true = TransportCredentials.tls none ""
    ∧ (dialsOf (mainWith ToLower hubAddr useSsl hubApiKey env).world.events).map
        (fun d => d.2.1)
        = [some (if useSsl then TransportCredentials.tls none "" else TransportCredentials.insecure)]
    ∧ (dialsOf (main ToLower env).world.events).map (fun d => d.2.1)
        = [some (TransportCredentials.tls none "")] := by
  have key : ∀ (b : Bool) (a k : String) (env : Env),
      (dialsOf (mainWith ToLower a b k env).world.events).map (fun d => d.2.1)
        = [some (if b then TransportCredentials.tls none "" else TransportCredentials.insecure)] := by
    intro useSsl hubAddr hubApiKey env
    obtain ⟨dial, call, marshal⟩ := env
    cases dial with
    | fail q e => rw [run_dial_fail]; cases useSsl <;> simp [dialsOf, dialEvent, cred,
        credentials.NewClientTLSFromCert, insecure.NewCredentials]
    | ok q =>
      cases call with
      | error e => rw [run_call_fail]; cases useSsl <;> simp [dialsOf, dialEvent, callEvent, cred,
          credentials.NewClientTLSFromCert, insecure.NewCredentials]
      | ok res => rw [run_call_ok]; cases useSsl <;> simp [dialsOf, dialEvent, callEvent, cred,
          credentials.NewClientTLSFromCert, insecure.NewCredentials]
  exact ⟨rfl, rfl, key useSsl hubAddr hubApiKey env, key true _ _ env⟩

/-! ## Exit paths of `main` -/

/-- C5 (the failing path): when the dial returns a connection and the
`GetCastsByFid` call returns an error, `log.Fatalf` ends the process with
status 1 and the deferred `conn.Close()` never runs: the trace holds the call
and no close.  On the normal return path the connection is closed once, and
the close is the last event of the run. -/
theorem C5_rpc_error_exit_skips_close (ToLower : String → String) (hubAddr : String)
    (useSsl : Bool) (hubApiKey : String) (p : ConnPtr) (e : Error) (res : MessagesResponse)
    (marshal : MessagesResponse → String × Option Error) :
    closesOf (mainWith ToLower hubAddr useSsl hubApiKey
        { dial := DialAttempt.ok p, call := Except.error e, marshal := marshal }).world.events = []
    ∧ (callsOf (mainWith ToLower hubAddr useSsl hubApiKey
        { dial := DialAttempt.ok p, call := Except.error e, marshal := marshal }).world.events).length = 1
    ∧ (mainWith ToLower hubAddr useSsl hubApiKey
        { dial := DialAttempt.ok p, call := Except.error e, marshal := marshal }).exit
        = Exit.exited 1
    ∧ closesOf (mainWith ToLower hubAddr useSsl hubApiKey
        { dial := DialAttempt.ok p, call := Except.ok res, marshal := marshal }).world.events = [p]
    ∧ (mainWith ToLower hubAddr useSsl hubApiKey
        { dial := DialAttempt.ok p, call := Except.ok res, marshal := marshal }).world.events.getLast?
        = some (Event.close p) := by
  rw [run_call_fail, run_call_ok]
  simp [closesOf, callsOf, dialEvent, callEvent]

/-- C6 (the failing path): when `protojson.Marshal` returns the pair
`(bytes, err)` with a non-nil `err`, `main` still prints `bytes` and a newline
to standard output, logs nothing and returns with exit status 0. -/
theorem C6_marshal_error_is_ignored (ToLower : String → String) (hubAddr : String)
    (useSsl : Bool) (hubApiKey : String) (p : ConnPtr) (res : MessagesResponse)
    (marshal : MessagesResponse → String × Option Error) (bytes : String) (e : Error)
    (hm : marshal res = (bytes, some e)) :
    stdoutOf (mainWith ToLower hubAddr useSsl hubApiKey
        { dial := DialAttempt.ok p, call := Except.ok res, marshal := marshal }).world.events
        = [bytes ++ "\n"]
    ∧ logOf (mainWith ToLower hubAddr useSsl hubApiKey
        { dial := DialAttempt.ok p, call := Except.ok res, marshal := marshal }).world.events = []
    ∧ (mainWith ToLower hubAddr useSsl hubApiKey
        { dial := DialAttempt.ok p, call := Except.ok res, marshal := marshal }).exit.status = 0 := by
  rw [run_call_ok]
  simp [stdoutOf, logOf, dialEvent, callEvent, hm, Exit.status]

/-- C6, at a concrete input: the projection of the response fails, and the run
of `main` prints a lone newline and exits with status 0. -/
theorem C6_marshal_error_is_ignored_witness :
    envMarshalFails.marshal { messages := ["cast"] } = ("", some { text := "proto: invalid UTF-8" })
    ∧ stdoutOf (mainWith asciiLower "hub-grpc-api.neynar.com:443" true ""
        { dial := DialAttempt.ok 1, call := Except.ok { messages := ["cast"] },
          marshal := envMarshalFails.marshal }).world.events = ["" ++ "\n"]
    ∧ logOf (mainWith asciiLower "hub-grpc-api.neynar.com:443" true ""
        { dial := DialAttempt.ok 1, call := Except.ok { messages := ["cast"] },
          marshal := envMarshalFails.marshal }).world.events = []
    ∧ (mainWith asciiLower "hub-grpc-api.neynar.com:443" true ""
        { dial := DialAttempt.ok 1, call := Except.ok { messages := ["cast"] },
          marshal := envMarshalFails.marshal }).exit.status = 0 :=
  ⟨rfl, C6_marshal_error_is_ignored asciiLower "hub-grpc-api.neynar.com:443" true "" 1
    { messages := ["cast"] } envMarshalFails.marshal "" { text := "proto: invalid UTF-8" } rfl⟩

/-- C7: if the dial returns an error, with or without a connection object, or
the `GetCastsByFid` call returns an error, `main` writes nothing to standard
output, logs exactly one message, `Did not connect: ` resp.
`Failed to get casts by fid: ` followed by the text of the error, and exits
with status 1. -/
theorem C7_dial_or_call_error_is_fatal (ToLower : String → String) (hubAddr : String)
    (useSsl : Bool) (hubApiKey : String) (c : Option ConnPtr) (p : ConnPtr) (e : Error)
    (call : Except Error MessagesResponse)
    (marshal : MessagesResponse → String × Option Error) :
    (stdoutOf (mainWith ToLower hubAddr useSsl hubApiKey
        { dial := DialAttempt.fail c e, call := call, marshal := marshal }).world.events = []
      ∧ logOf (mainWith ToLower hubAddr useSsl hubApiKey
        { dial := DialAttempt.fail c e, call := call, marshal := marshal }).world.events
          = ["Did not connect: " ++ e.text]
      ∧ (mainWith ToLower hubAddr useSsl hubApiKey
        { dial := DialAttempt.fail c e, call := call, marshal := marshal }).exit.status = 1)
    ∧ (stdoutOf (mainWith ToLower hubAddr useSsl hubApiKey
        { dial := DialAttempt.ok p, call := Except.error e, marshal := marshal }).world.events = []
      ∧ logOf (mainWith ToLower hubAddr useSsl hubApiKey
        { dial := DialAttempt.ok p, call := Except.error e, marshal := marshal }).world.events
          = ["Failed to get casts by fid: " ++ e.text]
      ∧ (mainWith ToLower hubAddr useSsl hubApiKey
        { dial := DialAttempt.ok p, call := Except.error e, marshal := marshal }).exit.status = 1) := by
  rw [run_dial_fail, run_call_fail]
  simp [stdoutOf, logOf, dialEvent, callEvent, Exit.status]

/-- C8: a run of `main` hands exactly one unary call to the transport when the
dial returns no error, whatever the outcome of that call, and none when the
dial returns an error; the one call is `GetCastsByFid` with the request
`Fid = 280`, `Reverse = some true`, `PageSize = some 10`. -/
theorem C8_exactly_one_call (ToLower : String → String) (hubAddr : String)
    (useSsl : Bool) (hubApiKey : String) (c : Option ConnPtr) (p : ConnPtr) (e : Error)
    (call : Except Error MessagesResponse)
    (marshal : MessagesResponse → String × Option Error) :
    callsOf (mainWith ToLower hubAddr useSsl hubApiKey
        { dial := DialAttempt.ok p, call := call, marshal := marshal }).world.events
      = [("/HubService/GetCastsByFid", { Fid := 280, Reverse := some true, PageSize := some 10 })]
    ∧ callsOf (mainWith ToLower hubAddr useSsl hubApiKey
        { dial := DialAttempt.fail c e, call := call, marshal := marshal }).world.events = [] := by
  refine ⟨?_, ?_⟩
  · cases call with
    | error e => rw [run_call_fail]; simp [callsOf, dialEvent, callEvent, mainRequest]
    | ok res => rw [run_call_ok]; simp [callsOf, dialEvent, callEvent, mainRequest]
  · rw [run_dial_fail]; simp [callsOf, dialEvent]

/-- C9: when the dial, the call and the JSON rendering all succeed, standard
output receives exactly the rendered text followed by one newline, nothing is
logged, the deferred cancel and close run last, and `main` returns (exit
status 0). -/
theorem C9_success_prints_json_line (ToLower : String → String) (hubAddr : String)
    (useSsl : Bool) (hubApiKey : String) (p : ConnPtr) (res : MessagesResponse)
    (marshal : MessagesResponse → String × Option Error) (json : String)
    (hm : marshal res = (json, none)) :
    stdoutOf (mainWith ToLower hubAddr useSsl hubApiKey
        { dial := DialAttempt.ok p, call := Except.ok res, marshal := marshal }).world.events
        = [json ++ "\n"]
    ∧ logOf (mainWith ToLower hubAddr useSsl hubApiKey
        { dial := DialAttempt.ok p, call := Except.ok res, marshal := marshal }).world.events = []
    ∧ (mainWith ToLower hubAddr useSsl hubApiKey
        { dial := DialAttempt.ok p, call := Except.ok res, marshal := marshal }).exit = Exit.returned
    ∧ (mainWith ToLower hubAddr useSsl hubApiKey
        { dial := DialAttempt.ok p, call := Except.ok res, marshal := marshal }).exit.status = 0 := by
  rw [run_call_ok]
  simp [stdoutOf, logOf, dialEvent, callEvent, hm, Exit.status]

/-- C9, at a concrete input: every outside operation succeeds and the response
renders as an empty JSON object. -/
theorem C9_success_prints_json_line_witness :
    envAllOk.marshal { messages := ["cast"] } = ("\x7b\x7d", none)
    ∧ stdoutOf (mainWith asciiLower "hub-grpc-api.neynar.com:443" true ""
        { dial := DialAttempt.ok 1, call := Except.ok { messages := ["cast"] },
          marshal := envAllOk.marshal }).world.events = ["\x7b\x7d" ++ "\n"]
    ∧ logOf (mainWith asciiLower "hub-grpc-api.neynar.com:443" true ""
        { dial := DialAttempt.ok 1, call := Except.ok { messages := ["cast"] },
          marshal := envAllOk.marshal }).world.events = []
    ∧ (mainWith asciiLower "hub-grpc-api.neynar.com:443" true ""
        { dial := DialAttempt.ok 1, call := Except.ok { messages := ["cast"] },
          marshal := envAllOk.marshal }).exit = Exit.returned
    ∧ (mainWith asciiLower "hub-grpc-api.neynar.com:443" true ""
        { dial := DialAttempt.ok 1, call := Except.ok { messages := ["cast"] },
          marshal := envAllOk.marshal }).exit.status = 0 :=
  ⟨rfl, C9_success_prints_json_line asciiLower "hub-grpc-api.neynar.com:443" true "" 1
    { messages := ["cast"] } envAllOk.marshal "\x7b\x7d" rfl⟩

end Example
